import Mathlib

/-!
Verification development for the parking-lot service (`ParkingLot.py`).

The Python source is shallow-embedded as follows:
* mutable objects become explicit state passed through functions;
* `time.time()` values become rationals (`ℚ`) supplied as a `now` argument;
* `uuid.uuid4()` ticket ids become a fresh counter `next_ticket_id`
  (the only property the code relies on is that ids are never reused);
* a `threading.Lock` becomes the boolean field `locked` of its slot;
* the dictionary `active_tickets` becomes an association list keyed by
  ticket id (keys are pairwise distinct in every reachable state);
* a Python function that can `raise` returns an `Except` value;
* slots are addressed by their position `(floor index, slot index)`,
  standing for the object reference held by a `Ticket`.
-/

set_option maxHeartbeats 1000000

inductive SlotStatus where
  | AVAILABLE
  | BOOKED
deriving DecidableEq

inductive VehicleCategory where
  | CAR
  | BIKE
deriving DecidableEq

structure Vehicle where
  vehicle_id : String
  vehicle_type : VehicleCategory
deriving DecidableEq

/-- One parking slot: `Slot.__init__` fields, with the `threading.Lock`
rendered as the boolean `locked`. -/
structure Slot where
  slot_id : Nat
  vehicle_type : VehicleCategory
  slot_status : SlotStatus
  vehicle : Option Vehicle
  locked : Bool
deriving DecidableEq

/-- `Slot.__init__(slot_id, vehicle_type)`: AVAILABLE, no occupant, lock free. -/
def mkSlot (slot_id : Nat) (vehicle_type : VehicleCategory) : Slot :=
  { slot_id := slot_id, vehicle_type := vehicle_type,
    slot_status := SlotStatus.AVAILABLE, vehicle := none, locked := false }

/-- `Slot.park`: unconditionally records the vehicle and sets BOOKED. -/
def Slot.park (s : Slot) (vehicle : Vehicle) : Slot :=
  { s with vehicle := some vehicle, slot_status := SlotStatus.BOOKED }

/-- `Slot.unpark`: unconditionally clears the vehicle and sets AVAILABLE. -/
def Slot.unpark (s : Slot) : Slot :=
  { s with vehicle := none, slot_status := SlotStatus.AVAILABLE }

structure ParkingFloor where
  floor_id : Nat
  slots : List Slot
deriving DecidableEq

/-- Read the slot at reference `r = (floor index, slot index)`. -/
def getSlot : List ParkingFloor → Nat × Nat → Option Slot
  | [], _ => none
  | fl :: _, (0, j) => fl.slots[j]?
  | _ :: rest, (i + 1, j) => getSlot rest (i, j)

/-- Write the slot at reference `r` (out-of-range writes are no-ops,
matching `List.set`; the service only writes references it has read). -/
def setSlot : List ParkingFloor → Nat × Nat → Slot → List ParkingFloor
  | [], _, _ => []
  | fl :: rest, (0, j), s => { fl with slots := fl.slots.set j s } :: rest
  | fl :: rest, (i + 1, j), s => fl :: setSlot rest (i, j) s

/-- `PricingService.calculate_price(entry_time, exit_time)`:
`hours = max(1, (exit_time - entry_time)/3600); return hours * 50`. -/
def PricingService.calculate_price (entry_time exit_time : ℚ) : ℚ :=
  max 1 ((exit_time - entry_time) / 3600) * 50

/-- Helper for the scan loop of `NearestSlotAllocationStrategy.allocate_slot`:
a `continue` over `slot` shifts a result found further right by one position
and puts `slot` back in front of the (otherwise unchanged) remainder. -/
def skipSlot (slot : Slot) :
    Option (Slot × Nat × List Slot) → Option (Slot × Nat × List Slot)
  | none => none
  | some (sl, j, rest) => some (sl, j + 1, slot :: rest)

/-- Inner loop of `NearestSlotAllocationStrategy.allocate_slot` over one
floor's slot list.  Mirrors lines 63-72 of the source: a category mismatch
continues; a failed non-blocking `lock.acquire` (slot already locked)
continues; an AVAILABLE slot is returned with its lock held; otherwise the
lock is released (net: the slot is unchanged) and the scan continues.
Returns the chosen slot (lock held), its index, and the updated list. -/
def allocateSlots (vehicle_type : VehicleCategory) :
    List Slot → Option (Slot × Nat × List Slot)
  | [] => none
  | slot :: rest =>
    if slot.vehicle_type ≠ vehicle_type then
      skipSlot slot (allocateSlots vehicle_type rest)
    else if slot.locked then
      skipSlot slot (allocateSlots vehicle_type rest)
    else if slot.slot_status = SlotStatus.AVAILABLE then
      some ({ slot with locked := true }, 0, { slot with locked := true } :: rest)
    else
      skipSlot slot (allocateSlots vehicle_type rest)

/-- Result of `allocate_slot`: the chosen slot (its lock now held), its
reference, and the floors with that acquisition applied. -/
structure AllocResult where
  slot : Slot
  ref : Nat × Nat
  floors : List ParkingFloor
deriving DecidableEq

/-- A floor exhausted without a hit: shift the floor index of a result found
further on and put the unchanged floor back in front. -/
def skipFloor (fl : ParkingFloor) : Option AllocResult → Option AllocResult
  | none => none
  | some r => some ⟨r.slot, (r.ref.1 + 1, r.ref.2), fl :: r.floors⟩

/-- `NearestSlotAllocationStrategy.allocate_slot(floors, vehicle_type)`:
scan floors in list order, slots within a floor in list order; return the
first acquirable AVAILABLE slot of the category with its lock still held
(deliberate ownership transfer to the caller), or `none`. -/
def allocate_slot : List ParkingFloor → VehicleCategory → Option AllocResult
  | [], _ => none
  | fl :: rest, vehicle_type =>
    match allocateSlots vehicle_type fl.slots with
    | some (sl, j, slots1) => some ⟨sl, (0, j), { fl with slots := slots1 } :: rest⟩
    | none => skipFloor fl (allocate_slot rest vehicle_type)

/-- Spec-side definition, following the spec's words for claim C3: the first
slot, scanning floors in their list order and slots within each floor in
their list order, whose category matches and whose status is AVAILABLE.
Inner loop over one floor's slots.  (Locks play no part here.) -/
def firstFreeSlots (vehicle_type : VehicleCategory) : List Slot → Option Nat
  | [] => none
  | slot :: rest =>
    if slot.vehicle_type = vehicle_type ∧ slot.slot_status = SlotStatus.AVAILABLE then
      some 0
    else
      (firstFreeSlots vehicle_type rest).map (· + 1)

/-- Spec-side definition for claim C3, outer loop over the floors. -/
def firstFreeRef : List ParkingFloor → VehicleCategory → Option (Nat × Nat)
  | [], _ => none
  | fl :: rest, vehicle_type =>
    match firstFreeSlots vehicle_type fl.slots with
    | some j => some (0, j)
    | none => (firstFreeRef rest vehicle_type).map (fun r => (r.1 + 1, r.2))

/-- `Ticket.__init__(slot, vehicle)`: the uuid4 ticket id is modelled as a
counter value (`ParkingService.next_ticket_id`), the slot object reference
as the slot's position, and `time.time()` as the `now` argument of the
minting `park_vehicle` call. -/
structure Ticket where
  ticket_id : Nat
  slot : Nat × Nat
  vehicle : Vehicle
  entry_time : ℚ
deriving DecidableEq

/-- `ParkingService.__init__`: the floors, the dictionary `active_tickets`
(as an association list), and the uuid counter.  The allocation strategy and
pricing service are the repository's unique concrete implementations
(`NearestSlotAllocationStrategy`, `PricingService`), embedded directly as
the functions above. -/
structure ParkingService where
  floors : List ParkingFloor
  active_tickets : List (Nat × Ticket)
  next_ticket_id : Nat
deriving DecidableEq

/-- The keys of the ticket store. -/
def keysOf (ps : ParkingService) : List Nat :=
  ps.active_tickets.map (fun p => p.1)

/-- `ParkingService.park_vehicle(vehicle)` at time `now`.  The strategy
returns a slot with its lock already held; the status re-check, `slot.park`,
ticket minting and store insertion happen under that lock, and the `finally`
block releases it on every path out of the `try`. -/
def park_vehicle (ps : ParkingService) (vehicle : Vehicle) (now : ℚ) :
    Option Ticket × ParkingService :=
  match allocate_slot ps.floors vehicle.vehicle_type with
  | none => (none, ps)
  | some r =>
    if r.slot.slot_status ≠ SlotStatus.AVAILABLE then
      (none, { ps with floors := setSlot r.floors r.ref { r.slot with locked := false } })
    else
      let slot1 := Slot.park r.slot vehicle
      let ticket : Ticket :=
        { ticket_id := ps.next_ticket_id, slot := r.ref,
          vehicle := vehicle, entry_time := now }
      (some ticket,
        { floors := setSlot r.floors r.ref { slot1 with locked := false },
          active_tickets := (ticket.ticket_id, ticket) :: ps.active_tickets,
          next_ticket_id := ps.next_ticket_id + 1 })

/-- `ParkingService.unpark_vehicle(ticket)` at time `now`.  An unknown
ticket id raises "Invalid or expired ticket" before any lock is taken; a
known one blocks on the slot's lock, computes the fee, vacates, pops the
ticket and releases the lock in the `finally` block.  The `invalid slot
reference` branch is an artifact of positional slot references and is
unreachable for tickets minted by `park_vehicle`. -/
def unpark_vehicle (ps : ParkingService) (ticket : Ticket) (now : ℚ) :
    Except String ℚ × ParkingService :=
  if (ps.active_tickets.find? (fun p => p.1 = ticket.ticket_id)).isNone then
    (Except.error "Invalid or expired ticket", ps)
  else
    match getSlot ps.floors ticket.slot with
    | none => (Except.error "invalid slot reference", ps)
    | some slot =>
      let slot1 := { slot with locked := true }
      let parking_fee := PricingService.calculate_price ticket.entry_time now
      let slot2 := Slot.unpark slot1
      (Except.ok parking_fee,
        { ps with
            floors := setSlot ps.floors ticket.slot { slot2 with locked := false },
            active_tickets := ps.active_tickets.filter (fun p => p.1 ≠ ticket.ticket_id) })

/-- One external operation on the service: a `park_vehicle` call, or an
`unpark_vehicle` call redeeming the `k`-th ticket ever returned by a
successful park (the only tickets a caller can hold). -/
inductive Op where
  | parkOp (vehicle : Vehicle) (now : ℚ)
  | unparkOp (k : Nat) (now : ℚ)
deriving DecidableEq

/-- Trace state: the service state, every ticket ever issued by a successful
park (in order), and the ids already successfully redeemed (ghost data used
only to state properties). -/
structure TraceState where
  ps : ParkingService
  issued : List Ticket
  redeemed : List Nat
deriving DecidableEq

/-- Apply one operation to a trace state. -/
def step (s : TraceState) : Op → TraceState
  | Op.parkOp v now =>
    match park_vehicle s.ps v now with
    | (some t, ps1) => { ps := ps1, issued := s.issued ++ [t], redeemed := s.redeemed }
    | (none, ps1) => { s with ps := ps1 }
  | Op.unparkOp k now =>
    match s.issued[k]? with
    | none => s
    | some t =>
      match unpark_vehicle s.ps t now with
      | (Except.ok _, ps1) => { s with ps := ps1, redeemed := t.ticket_id :: s.redeemed }
      | (Except.error _, ps1) => { s with ps := ps1 }

/-- A freshly provisioned facility: empty ticket store, given floors. -/
def startState (floors : List ParkingFloor) : TraceState :=
  { ps := { floors := floors, active_tickets := [], next_ticket_id := 0 },
    issued := [], redeemed := [] }

/-- Run a sequence of operations from a given state. -/
def runFrom (s : TraceState) (ops : List Op) : TraceState :=
  ops.foldl step s

/-- Run a sequence of operations from the freshly provisioned facility. -/
def run (floors : List ParkingFloor) (ops : List Op) : TraceState :=
  runFrom (startState floors) ops

/-- Every slot's lock is free (true of every state between calls in a
sequential execution; a lock is only ever held inside one call). -/
abbrev allUnlocked (floors : List ParkingFloor) : Prop :=
  ∀ fl ∈ floors, ∀ sl ∈ fl.slots, sl.locked = false

/-- Slots as provisioned by `Slot.__init__`: AVAILABLE, empty, unlocked. -/
abbrev initialFloors (floors : List ParkingFloor) : Prop :=
  ∀ fl ∈ floors, ∀ sl ∈ fl.slots,
    sl.slot_status = SlotStatus.AVAILABLE ∧ sl.vehicle = none ∧ sl.locked = false

/-- The inductive invariant of reachable trace states: lock discipline,
slot-status/occupant coherence, and agreement between the slots, the ticket
store, and the ghost `issued`/`redeemed` histories. -/
structure ReachInv (s : TraceState) : Prop where
  locks : allUnlocked s.ps.floors
  coher : ∀ fl ∈ s.ps.floors, ∀ sl ∈ fl.slots,
    (sl.slot_status = SlotStatus.BOOKED ↔ sl.vehicle ≠ none)
  keyEq : ∀ p ∈ s.ps.active_tickets, p.1 = p.2.ticket_id
  keyLt : ∀ p ∈ s.ps.active_tickets, p.2.ticket_id < s.ps.next_ticket_id
  keyNodup : s.ps.active_tickets.Pairwise (fun a b => a.1 ≠ b.1)
  refInj : s.ps.active_tickets.Pairwise (fun a b => a.2.slot ≠ b.2.slot)
  tickSlot : ∀ p ∈ s.ps.active_tickets, ∃ sl, getSlot s.ps.floors p.2.slot = some sl ∧
    sl.slot_status = SlotStatus.BOOKED ∧ sl.vehicle = some p.2.vehicle
  slotTick : ∀ r sl, getSlot s.ps.floors r = some sl →
    sl.slot_status = SlotStatus.BOOKED → ∃ p ∈ s.ps.active_tickets, p.2.slot = r
  issuedLt : ∀ t ∈ s.issued, t.ticket_id < s.ps.next_ticket_id
  issuedNodup : s.issued.Pairwise (fun a b => a.ticket_id ≠ b.ticket_id)
  storeIssued : ∀ p ∈ s.ps.active_tickets, p.2 ∈ s.issued
  issuedStore : ∀ t ∈ s.issued, ∀ p ∈ s.ps.active_tickets, p.1 = t.ticket_id → p.2 = t
  liveIff : ∀ t ∈ s.issued, (t.ticket_id ∈ keysOf s.ps ↔ t.ticket_id ∉ s.redeemed)
  redeemedLt : ∀ i ∈ s.redeemed, i < s.ps.next_ticket_id

deriving instance DecidableEq for Except

/-- Scenario facility of claim C2: one floor, one CAR slot S1 (slot id 1,
reference `(0, 0)`). -/
def floorsC2 : List ParkingFloor := [⟨1, [mkSlot 1 VehicleCategory.CAR]⟩]

def carA : Vehicle := ⟨"KA-123-456-89", VehicleCategory.CAR⟩

def carB : Vehicle := ⟨"UP-92-123-456", VehicleCategory.CAR⟩

/-- The scenario's service after provisioning. -/
def psC2 : ParkingService := (startState floorsC2).ps

/-- The ticket T1 that `park_vehicle carA` at time 0 mints. -/
def ticketT1 : Ticket := ⟨0, (0, 0), carA, 0⟩

/-- The service after `park(car A)`. -/
def psAfterParkA : ParkingService := (park_vehicle psC2 carA 0).2

/-- The service after `unpark(T1)` two hours later. -/
def psAfterUnparkT1 : ParkingService := (unpark_vehicle psAfterParkA ticketT1 7200).2

/-- The ticket T2 that the second `park_vehicle carB` (time 7200) mints. -/
def ticketT2 : Ticket := ⟨1, (0, 0), carB, 7200⟩

/-- The service after the second, successful `park(car B)`. -/
def psAfterParkB : ParkingService := (park_vehicle psAfterUnparkT1 carB 7200).2

/-- An already occupied slot, used to exercise `Slot.park`'s behaviour when
its caller's contract is broken. -/
def occupiedSlot : Slot :=
  { slot_id := 7, vehicle_type := VehicleCategory.CAR,
    slot_status := SlotStatus.BOOKED, vehicle := some carA, locked := false }

/-- The facility built by the script's `main()` (floor 1: slots 6,3,1;
floor 2: slots 2,4,5), used as a concrete witness facility. -/
def floorsMain : List ParkingFloor :=
  [⟨1, [mkSlot 6 VehicleCategory.BIKE, mkSlot 3 VehicleCategory.CAR,
        mkSlot 1 VehicleCategory.CAR]⟩,
   ⟨2, [mkSlot 2 VehicleCategory.CAR, mkSlot 4 VehicleCategory.BIKE,
        mkSlot 5 VehicleCategory.BIKE]⟩]

/-- The witness facility's provisioned service state. -/
def psMain : ParkingService := (startState floorsMain).ps

/-- C8 -- Fee monotonicity and minimum unit: for fixed entry time the fee is
non-decreasing in the exit time, and any stay strictly shorter than 3600
seconds is billed exactly one full unit, 50. -/
theorem fee_monotone_and_minimum :
    (∀ entry x y : ℚ, x ≤ y →
        PricingService.calculate_price entry x ≤ PricingService.calculate_price entry y) ∧
    (∀ entry exit : ℚ, exit - entry < 3600 →
        PricingService.calculate_price entry exit = 50) := by
  constructor
  · intro entry x y hxy
    unfold PricingService.calculate_price
    have h1 : (x - entry) / 3600 ≤ (y - entry) / 3600 := by
      apply div_le_div_of_nonneg_right _ (by norm_num)
      linarith
    have h2 : max 1 ((x - entry) / 3600) ≤ max 1 ((y - entry) / 3600) :=
      max_le_max le_rfl h1
    nlinarith [h2]
  · intro entry exit h
    unfold PricingService.calculate_price
    have h1 : (exit - entry) / 3600 ≤ 1 := by
      rw [div_le_one (by norm_num)]
      linarith
    rw [max_eq_left h1, one_mul]

/-- C8 witness at concrete inputs. -/
theorem fee_monotone_and_minimum_witness :
    ((0 : ℚ) ≤ 7200 ∧
      PricingService.calculate_price 0 0 ≤ PricingService.calculate_price 0 7200) ∧
    ((100 : ℚ) - 0 < 3600 ∧ PricingService.calculate_price 0 100 = 50) :=
  ⟨⟨by norm_num, fee_monotone_and_minimum.1 0 0 7200 (by norm_num)⟩,
   ⟨by norm_num, fee_monotone_and_minimum.2 0 100 (by norm_num)⟩⟩

/-- C10 -- Pricing is total (a plain function of two rationals, no error
path); a difference of at most 3600 seconds -- including a negative one --
bills exactly 50, and a longer stay bills proportionally, `50 * diff / 3600`,
with no rounding to whole hours. -/
theorem pricing_total_and_proportional :
    (∀ entry exit : ℚ, exit - entry ≤ 3600 →
        PricingService.calculate_price entry exit = 50) ∧
    (∀ entry exit : ℚ, 3600 < exit - entry →
        PricingService.calculate_price entry exit = 50 * ((exit - entry) / 3600)) := by
  constructor
  · intro entry exit h
    unfold PricingService.calculate_price
    have h1 : (exit - entry) / 3600 ≤ 1 := by
      rw [div_le_one (by norm_num)]
      linarith
    rw [max_eq_left h1, one_mul]
  · intro entry exit h
    unfold PricingService.calculate_price
    have h1 : (1 : ℚ) ≤ (exit - entry) / 3600 := by
      rw [le_div_iff₀ (by norm_num)]
      linarith
    rw [max_eq_right h1, mul_comm]

/-- C10 witness at concrete inputs: a negative stay bills 50, a 2-hour stay
bills 100. -/
theorem pricing_total_and_proportional_witness :
    ((50 : ℚ) - 100 ≤ 3600 ∧ PricingService.calculate_price 100 50 = 50) ∧
    ((3600 : ℚ) < 7200 - 0 ∧
      PricingService.calculate_price 0 7200 = 50 * ((7200 - 0) / 3600)) :=
  ⟨⟨by norm_num, pricing_total_and_proportional.1 100 50 (by norm_num)⟩,
   ⟨by norm_num, pricing_total_and_proportional.2 0 7200 (by norm_num)⟩⟩

/-- C2 -- End-to-end scenario on a facility with one floor and one CAR slot
S1 at reference (0,0): `park(car A)` at time 0 returns T1 bound to S1;
`park(car B)` then returns none with the state untouched; `unpark(T1)` two
hours (7200 s) after entry returns fee 100 and leaves S1 AVAILABLE and
empty; `park(car B)` then succeeds with T2 bound to S1; a second
`unpark(T1)` fails with the invalid-ticket error and changes nothing. -/
theorem scenario_end_to_end :
    (park_vehicle psC2 carA 0).1 = some ticketT1 ∧
    ticketT1.slot = (0, 0) ∧
    (getSlot floorsC2 (0, 0)).map Slot.slot_id = some 1 ∧
    park_vehicle psAfterParkA carB 3600 = (none, psAfterParkA) ∧
    (unpark_vehicle psAfterParkA ticketT1 7200).1 = Except.ok 100 ∧
    (getSlot psAfterUnparkT1.floors (0, 0)).map Slot.slot_status
      = some SlotStatus.AVAILABLE ∧
    (getSlot psAfterUnparkT1.floors (0, 0)).map Slot.vehicle = some none ∧
    (park_vehicle psAfterUnparkT1 carB 7200).1 = some ticketT2 ∧
    ticketT2.slot = (0, 0) ∧
    unpark_vehicle psAfterParkB ticketT1 7300
      = (Except.error "Invalid or expired ticket", psAfterParkB) := by
  refine ⟨by decide, by decide, by decide, by decide, ?_, by decide, by decide,
    by decide, by decide, by decide⟩
  show (unpark_vehicle psAfterParkA ticketT1 7200).1 = Except.ok 100
  have hps : (psAfterParkA.active_tickets.find?
      (fun p => p.1 = ticketT1.ticket_id)).isNone = false := by decide
  have hsl : getSlot psAfterParkA.floors ticketT1.slot
      = some ((mkSlot 1 VehicleCategory.CAR).park carA) := by decide
  rw [unpark_vehicle, hps]
  simp only [Bool.false_eq_true, if_false, hsl]
  show Except.ok (PricingService.calculate_price 0 7200) = Except.ok 100
  have : PricingService.calculate_price 0 7200 = 100 := by
    unfold PricingService.calculate_price
    rw [show ((7200 : ℚ) - 0) / 3600 = 2 by norm_num,
      max_eq_right (by norm_num : (1 : ℚ) ≤ 2)]
    norm_num
  rw [this]

/-- C6 counterexample -- the claim is false on the code: `Slot.park` called
on an already BOOKED slot completes as a normal outcome (no error channel at
all in its type) and silently overwrites the occupant, and `Slot.unpark`
called on a free slot also completes normally. -/
theorem slot_contract_counterexample :
    (Slot.park occupiedSlot carB).slot_status = SlotStatus.BOOKED ∧
    (Slot.park occupiedSlot carB).vehicle = some carB ∧
    occupiedSlot.vehicle = some carA ∧
    carA ≠ carB ∧
    Slot.unpark (mkSlot 1 VehicleCategory.CAR) = mkSlot 1 VehicleCategory.CAR := by
  decide

/-- C6 amended -- `Slot.park` unconditionally records the vehicle and sets
BOOKED, overwriting any occupant without signalling any error, and
`Slot.unpark` unconditionally clears the occupant and sets AVAILABLE; the
occupancy guard lives in the callers (`ParkingService.park_vehicle` re-checks
`slot_status` under the held lock before calling `Slot.park`), not in the
slot itself. -/
theorem slot_park_unpark_unconditional (s : Slot) (v : Vehicle) :
    Slot.park s v = { s with vehicle := some v, slot_status := SlotStatus.BOOKED } ∧
    Slot.unpark s = { s with vehicle := none, slot_status := SlotStatus.AVAILABLE } :=
  ⟨rfl, rfl⟩

theorem getSlot_mem {floors : List ParkingFloor} {r : Nat × Nat} {sl : Slot}
    (h : getSlot floors r = some sl) : ∃ fl ∈ floors, sl ∈ fl.slots := by
  induction floors generalizing r with
  | nil => simp [getSlot] at h
  | cons fl rest ih =>
    obtain ⟨i, j⟩ := r
    cases i with
    | zero =>
      exact ⟨fl, List.mem_cons_self fl rest, List.getElem?_mem h⟩
    | succ i =>
      obtain ⟨fl1, hfl1, hsl⟩ := ih h
      exact ⟨fl1, List.mem_cons_of_mem fl hfl1, hsl⟩

theorem getSlot_isSome_lt {floors : List ParkingFloor} {r : Nat × Nat} {sl : Slot}
    (h : getSlot floors r = some sl) :
    ∃ fl, floors[r.1]? = some fl ∧ fl.slots[r.2]? = some sl := by
  induction floors generalizing r with
  | nil => simp [getSlot] at h
  | cons fl rest ih =>
    obtain ⟨i, j⟩ := r
    cases i with
    | zero => exact ⟨fl, by simp, h⟩
    | succ i =>
      obtain ⟨fl1, h1, h2⟩ := ih h
      exact ⟨fl1, by simpa using h1, h2⟩

theorem getSlot_setSlot_self {floors : List ParkingFloor} {r : Nat × Nat}
    {sl0 s : Slot} (h : getSlot floors r = some sl0) :
    getSlot (setSlot floors r s) r = some s := by
  induction floors generalizing r with
  | nil => simp [getSlot] at h
  | cons fl rest ih =>
    obtain ⟨i, j⟩ := r
    cases i with
    | zero =>
      show (fl.slots.set j s)[j]? = some s
      have hj : j < fl.slots.length :=
        (List.getElem?_eq_some.mp (show fl.slots[j]? = some sl0 from h)).1
      exact List.getElem?_set_eq_of_lt s hj
    | succ i => exact ih h

theorem getSlot_setSlot_ne {floors : List ParkingFloor} {r r1 : Nat × Nat}
    {s : Slot} (h : r1 ≠ r) :
    getSlot (setSlot floors r s) r1 = getSlot floors r1 := by
  induction floors generalizing r r1 with
  | nil => rfl
  | cons fl rest ih =>
    obtain ⟨i, j⟩ := r
    obtain ⟨i1, j1⟩ := r1
    cases i with
    | zero =>
      cases i1 with
      | zero =>
        have hj : j ≠ j1 := by
          intro e
          exact h (by rw [e])
        show (fl.slots.set j s)[j1]? = fl.slots[j1]?
        exact List.getElem?_set_ne hj
      | succ i1 => rfl
    | succ i =>
      cases i1 with
      | zero => rfl
      | succ i1 =>
        refine ih ?_
        intro e
        apply h
        rw [Prod.mk.injEq] at e ⊢
        exact ⟨by rw [e.1], e.2⟩

theorem setSlot_setSlot {floors : List ParkingFloor} {r : Nat × Nat}
    {a b : Slot} : setSlot (setSlot floors r a) r b = setSlot floors r b := by
  induction floors generalizing r with
  | nil => rfl
  | cons fl rest ih =>
    obtain ⟨i, j⟩ := r
    cases i with
    | zero => simp [setSlot, List.set_set]
    | succ i => simp [setSlot, ih]

theorem slots_forall_setSlot {P : Slot → Prop} {floors : List ParkingFloor}
    {r : Nat × Nat} {s : Slot}
    (hp : ∀ fl ∈ floors, ∀ sl ∈ fl.slots, P sl) (hs : P s) :
    ∀ fl ∈ setSlot floors r s, ∀ sl ∈ fl.slots, P sl := by
  induction floors generalizing r with
  | nil => intro fl hfl; simp [setSlot] at hfl
  | cons fl0 rest ih =>
    obtain ⟨i, j⟩ := r
    cases i with
    | zero =>
      intro fl hfl sl hsl
      rcases List.mem_cons.mp hfl with hfl | hfl
      · subst hfl
        rcases List.mem_or_eq_of_mem_set hsl with hsl | hsl
        · exact hp fl0 (List.mem_cons_self fl0 rest) sl hsl
        · subst hsl; exact hs
      · exact hp fl (List.mem_cons_of_mem fl0 hfl) sl hsl
    | succ i =>
      intro fl hfl sl hsl
      rcases List.mem_cons.mp hfl with hfl | hfl
      · subst hfl
        exact hp fl (List.mem_cons_self fl rest) sl hsl
      · exact ih (fun fl2 hfl2 => hp fl2 (List.mem_cons_of_mem fl0 hfl2)) fl hfl sl hsl

theorem skipSlot_eq_some {slot : Slot} {o : Option (Slot × Nat × List Slot)}
    {sl : Slot} {j : Nat} {slots1 : List Slot}
    (h : skipSlot slot o = some (sl, j, slots1)) :
    ∃ j0 rest0, o = some (sl, j0, rest0) ∧ j = j0 + 1 ∧ slots1 = slot :: rest0 := by
  cases o with
  | none => simp [skipSlot] at h
  | some x =>
    obtain ⟨sl0, j0, rest0⟩ := x
    simp only [skipSlot, Option.some.injEq, Prod.mk.injEq] at h
    obtain ⟨h1, h2, h3⟩ := h
    exact ⟨j0, rest0, by rw [h1], h2.symm, h3.symm⟩

theorem allocateSlots_spec {vt : VehicleCategory} {slots : List Slot}
    {sl : Slot} {j : Nat} {slots1 : List Slot}
    (h : allocateSlots vt slots = some (sl, j, slots1)) :
    ∃ sl0, slots[j]? = some sl0 ∧ sl0.locked = false ∧
      sl0.slot_status = SlotStatus.AVAILABLE ∧ sl0.vehicle_type = vt ∧
      sl = { sl0 with locked := true } ∧ slots1 = slots.set j sl := by
  induction slots generalizing j slots1 with
  | nil => simp [allocateSlots] at h
  | cons slot rest ih =>
    rw [allocateSlots] at h
    by_cases h1 : slot.vehicle_type ≠ vt
    · rw [if_pos h1] at h
      obtain ⟨j0, rest0, ho, hj, hs⟩ := skipSlot_eq_some h
      obtain ⟨sl0, hget, hl, hstat, hvt, hsl, hset⟩ := ih ho
      subst hj hs
      exact ⟨sl0, by simpa using hget, hl, hstat, hvt, hsl,
        by rw [List.set_cons_succ, hset]⟩
    · rw [if_neg h1] at h
      by_cases h2 : slot.locked = true
      · rw [if_pos h2] at h
        obtain ⟨j0, rest0, ho, hj, hs⟩ := skipSlot_eq_some h
        obtain ⟨sl0, hget, hl, hstat, hvt, hsl, hset⟩ := ih ho
        subst hj hs
        exact ⟨sl0, by simpa using hget, hl, hstat, hvt, hsl,
          by rw [List.set_cons_succ, hset]⟩
      · rw [if_neg h2] at h
        by_cases h3 : slot.slot_status = SlotStatus.AVAILABLE
        · rw [if_pos h3] at h
          simp only [Option.some.injEq, Prod.mk.injEq] at h
          obtain ⟨hsl, hj, hs⟩ := h
          subst hj
          refine ⟨slot, by simp, by simpa using h2, h3, not_not.mp h1, hsl.symm, ?_⟩
          rw [List.set_cons_zero, ← hs, hsl]
        · rw [if_neg h3] at h
          obtain ⟨j0, rest0, ho, hj, hs⟩ := skipSlot_eq_some h
          obtain ⟨sl0, hget, hl, hstat, hvt, hsl, hset⟩ := ih ho
          subst hj hs
          exact ⟨sl0, by simpa using hget, hl, hstat, hvt, hsl,
        by rw [List.set_cons_succ, hset]⟩

theorem skipFloor_eq_some {fl : ParkingFloor} {o : Option AllocResult}
    {r : AllocResult} (h : skipFloor fl o = some r) :
    ∃ r0, o = some r0 ∧ r.slot = r0.slot ∧ r.ref = (r0.ref.1 + 1, r0.ref.2) ∧
      r.floors = fl :: r0.floors := by
  cases o with
  | none => simp [skipFloor] at h
  | some r0 =>
    refine ⟨r0, rfl, ?_⟩
    simp only [skipFloor, Option.some.injEq] at h
    rw [← h]
    exact ⟨rfl, rfl, rfl⟩

theorem allocate_slot_spec {floors : List ParkingFloor} {vt : VehicleCategory}
    {r : AllocResult} (h : allocate_slot floors vt = some r) :
    ∃ sl0, getSlot floors r.ref = some sl0 ∧ sl0.locked = false ∧
      sl0.slot_status = SlotStatus.AVAILABLE ∧ sl0.vehicle_type = vt ∧
      r.slot = { sl0 with locked := true } ∧
      r.floors = setSlot floors r.ref r.slot := by
  induction floors generalizing r with
  | nil => simp [allocate_slot] at h
  | cons fl rest ih =>
    rw [allocate_slot] at h
    cases hin : allocateSlots vt fl.slots with
    | some x =>
      obtain ⟨sl, j, slots1⟩ := x
      rw [hin] at h
      obtain ⟨sl0, hget, hl, hstat, hvt, hsl, hset⟩ := allocateSlots_spec hin
      have hr : r = ⟨sl, (0, j), { fl with slots := slots1 } :: rest⟩ :=
        (Option.some.injEq _ _ ▸ h).symm
      subst hr
      refine ⟨sl0, hget, hl, hstat, hvt, hsl, ?_⟩
      show { fl with slots := slots1 } :: rest
        = { fl with slots := fl.slots.set j sl } :: rest
      rw [hset]
    | none =>
      rw [hin] at h
      obtain ⟨r0, ho, hslot, href, hfloors⟩ := skipFloor_eq_some h
      obtain ⟨sl0, hget, hl, hstat, hvt, hsl, hset⟩ := ih ho
      refine ⟨sl0, ?_, hl, hstat, hvt, by rw [hslot]; exact hsl, ?_⟩
      · rw [href]
        exact hget
      · rw [href, hfloors, hslot, hset]
        rfl

theorem skipSlot_map_idx (slot : Slot) (o : Option (Slot × Nat × List Slot)) :
    (skipSlot slot o).map (fun x => x.2.1)
      = (o.map (fun x => x.2.1)).map (· + 1) := by
  cases o with
  | none => rfl
  | some x =>
    obtain ⟨sl, j, rest⟩ := x
    rfl

theorem allocateSlots_map_firstFree {vt : VehicleCategory} {slots : List Slot}
    (h : ∀ sl ∈ slots, sl.locked = false) :
    (allocateSlots vt slots).map (fun x => x.2.1) = firstFreeSlots vt slots := by
  induction slots with
  | nil => rfl
  | cons slot rest ih =>
    have hrest := ih (fun sl hsl => h sl (List.mem_cons_of_mem _ hsl))
    have hslot : slot.locked = false := h slot (List.mem_cons_self _ _)
    rw [allocateSlots, firstFreeSlots]
    by_cases h1 : slot.vehicle_type = vt
    · by_cases h3 : slot.slot_status = SlotStatus.AVAILABLE
      · rw [if_neg (not_ne_iff.mpr h1), if_neg (by simp [hslot]), if_pos h3,
          if_pos ⟨h1, h3⟩]
        rfl
      · rw [if_neg (not_ne_iff.mpr h1), if_neg (by simp [hslot]), if_neg h3,
          if_neg (fun hc => h3 hc.2), skipSlot_map_idx, hrest]
    · rw [if_pos h1, if_neg (fun hc => h1 hc.1), skipSlot_map_idx, hrest]

theorem skipFloor_map_ref (fl : ParkingFloor) (o : Option AllocResult) :
    (skipFloor fl o).map (fun r => r.ref)
      = (o.map (fun r => r.ref)).map (fun p => (p.1 + 1, p.2)) := by
  cases o with
  | none => rfl
  | some r => rfl

theorem allocate_map_firstFreeRef {floors : List ParkingFloor}
    {vt : VehicleCategory} (h : allUnlocked floors) :
    (allocate_slot floors vt).map (fun r => r.ref) = firstFreeRef floors vt := by
  induction floors with
  | nil => rfl
  | cons fl rest ih =>
    have hfl : ∀ sl ∈ fl.slots, sl.locked = false := h fl (List.mem_cons_self _ _)
    have hrest := ih (fun fl2 h2 => h fl2 (List.mem_cons_of_mem _ h2))
    rw [allocate_slot, firstFreeRef, ← allocateSlots_map_firstFree hfl]
    cases hin : allocateSlots vt fl.slots with
    | some x =>
      obtain ⟨sl, j, slots1⟩ := x
      rfl
    | none =>
      show (skipFloor fl (allocate_slot rest vt)).map (fun r => r.ref)
        = (firstFreeRef rest vt).map (fun p => (p.1 + 1, p.2))
      rw [skipFloor_map_ref, hrest]

/-- C3 -- Allocation order (first-fit): when no lock is held (as between
sequential calls), `allocate_slot` agrees with the spec-side first-fit scan
`firstFreeRef`: it returns `none` exactly when no AVAILABLE slot of the
requested category exists, and otherwise returns the first such slot in
floor order then slot order, that slot now locked, the rest untouched. -/
theorem allocation_first_fit (floors : List ParkingFloor) (vt : VehicleCategory)
    (h : allUnlocked floors) :
    (allocate_slot floors vt = none ↔ firstFreeRef floors vt = none) ∧
    (∀ r, allocate_slot floors vt = some r →
      firstFreeRef floors vt = some r.ref ∧
      ∃ sl0, getSlot floors r.ref = some sl0 ∧ sl0.vehicle_type = vt ∧
        sl0.slot_status = SlotStatus.AVAILABLE ∧
        r.slot = { sl0 with locked := true } ∧
        r.floors = setSlot floors r.ref r.slot) := by
  have hm : (allocate_slot floors vt).map (fun r => r.ref) = firstFreeRef floors vt :=
    allocate_map_firstFreeRef h
  constructor
  · constructor
    · intro h0
      rw [← hm, h0]
      rfl
    · intro h0
      cases hall : allocate_slot floors vt with
      | none => rfl
      | some r =>
        rw [← hm, hall] at h0
        simp at h0
  · intro r hr
    have h1 : firstFreeRef floors vt = some r.ref := by
      rw [← hm, hr]
      rfl
    obtain ⟨sl0, hget, hl, hstat, hvt, hsl, hset⟩ := allocate_slot_spec hr
    exact ⟨h1, sl0, hget, hvt, hstat, hsl, hset⟩

/-- C3 witness on the `main()` facility: floor 1 holds slots 6 (BIKE),
3 (CAR), 1 (CAR), so the first CAR fit is reference (0, 1). -/
theorem allocation_first_fit_witness :
    allUnlocked floorsMain ∧
    (allocate_slot floorsMain VehicleCategory.CAR = none ↔
      firstFreeRef floorsMain VehicleCategory.CAR = none) ∧
    firstFreeRef floorsMain VehicleCategory.CAR = some (0, 1) :=
  ⟨by decide,
   (allocation_first_fit floorsMain VehicleCategory.CAR (by decide)).1,
   by decide⟩

/-- C7 -- Lock release on every exit path: starting from a state in which no
lock is held, `park_vehicle` and `unpark_vehicle` terminate with no lock
held, on every path (ticket returned, none returned, error raised); when
allocation finds no slot, `park_vehicle` changes nothing (no lock was ever
acquired), and when `unpark_vehicle` rejects an unknown ticket it does so
before acquiring any lock, changing nothing. -/
theorem lock_release_on_exit (ps : ParkingService) (h : allUnlocked ps.floors)
    (v : Vehicle) (t : Ticket) (now : ℚ) :
    allUnlocked (park_vehicle ps v now).2.floors ∧
    allUnlocked (unpark_vehicle ps t now).2.floors ∧
    (allocate_slot ps.floors v.vehicle_type = none →
      park_vehicle ps v now = (none, ps)) ∧
    ((ps.active_tickets.find? (fun p => p.1 = t.ticket_id)).isNone = true →
      unpark_vehicle ps t now = (Except.error "Invalid or expired ticket", ps)) := by
  refine ⟨?_, ?_, ?_, ?_⟩
  · rw [park_vehicle]
    split
    · exact h
    · next r heq =>
      obtain ⟨sl0, hget, hl, hstat, hvt, hsl, hset⟩ := allocate_slot_spec heq
      split
      · dsimp only
        rw [hset, setSlot_setSlot]
        exact slots_forall_setSlot h rfl
      · dsimp only
        rw [hset, setSlot_setSlot]
        exact slots_forall_setSlot h rfl
  · rw [unpark_vehicle]
    split
    · exact h
    · split
      · exact h
      · dsimp only
        exact slots_forall_setSlot h rfl
  · intro h0
    rw [park_vehicle, h0]
  · intro h0
    rw [unpark_vehicle, if_pos h0]

/-- C7 witness on the `main()` facility. -/
theorem lock_release_on_exit_witness :
    allUnlocked psMain.floors ∧
    allUnlocked (park_vehicle psMain carA 0).2.floors ∧
    allUnlocked (unpark_vehicle psMain ticketT1 5).2.floors :=
  ⟨by decide,
   (lock_release_on_exit psMain (by decide) carA ticketT1 0).1,
   (lock_release_on_exit psMain (by decide) carA ticketT1 5).2.1⟩

theorem mem_keysOf {ps : ParkingService} {i : Nat} :
    i ∈ keysOf ps ↔ ∃ p ∈ ps.active_tickets, p.1 = i := by
  simp [keysOf, List.mem_map]

theorem pairwise_ne_inj {α β : Type} {f : α → β} {l : List α}
    (h : l.Pairwise (fun a b => f a ≠ f b)) {a b : α}
    (ha : a ∈ l) (hb : b ∈ l) (he : f a = f b) : a = b := by
  by_contra hne
  have hsym : Symmetric (fun a b : α => f a ≠ f b) := fun x y hxy e => hxy e.symm
  exact List.Pairwise.forall hsym h ha hb hne he

theorem reachInv_start {floors : List ParkingFloor} (h : initialFloors floors) :
    ReachInv (startState floors) := by
  refine ⟨?_, ?_, ?_, ?_, ?_, ?_, ?_, ?_, ?_, ?_, ?_, ?_, ?_, ?_⟩
  · exact fun fl hfl sl hsl => (h fl hfl sl hsl).2.2
  · intro fl hfl sl hsl
    obtain ⟨h1, h2, _⟩ := h fl hfl sl hsl
    constructor
    · intro hb
      rw [h1] at hb
      cases hb
    · intro hv
      exact absurd h2 hv
  · intro p hp
    cases hp
  · intro p hp
    cases hp
  · exact List.Pairwise.nil
  · exact List.Pairwise.nil
  · intro p hp
    cases hp
  · intro r sl hg hb
    obtain ⟨fl, hfl, hsl⟩ := getSlot_mem hg
    rw [(h fl hfl sl hsl).1] at hb
    cases hb
  · intro t ht
    cases ht
  · exact List.Pairwise.nil
  · intro p hp
    cases hp
  · intro t ht
    cases ht
  · intro t ht
    cases ht
  · intro i hi
    cases hi

theorem reachInv_park {s : TraceState} (hs : ReachInv s) (v : Vehicle) (now : ℚ) :
    ReachInv (step s (Op.parkOp v now)) := by
  cases hall : allocate_slot s.ps.floors v.vehicle_type with
  | none =>
    have hpark : park_vehicle s.ps v now = (none, s.ps) := by
      rw [park_vehicle, hall]
    have hstep : step s (Op.parkOp v now) = s := by
      simp only [step]
      rw [hpark]
    rw [hstep]
    exact hs
  | some r =>
    obtain ⟨sl0, hget, hl0, hstat, hvt, hsl, hset⟩ := allocate_slot_spec hall
    have hnew : { Slot.park r.slot v with locked := false }
        = { sl0 with slot_status := SlotStatus.BOOKED,
                     vehicle := some v, locked := false } := by
      rw [hsl]
      rfl
    have hpark : park_vehicle s.ps v now =
        (some ⟨s.ps.next_ticket_id, r.ref, v, now⟩,
         { floors := setSlot s.ps.floors r.ref
             { sl0 with slot_status := SlotStatus.BOOKED,
                        vehicle := some v, locked := false },
           active_tickets :=
             (s.ps.next_ticket_id, ⟨s.ps.next_ticket_id, r.ref, v, now⟩)
               :: s.ps.active_tickets,
           next_ticket_id := s.ps.next_ticket_id + 1 }) := by
      rw [park_vehicle, hall]
      dsimp only
      rw [if_neg (not_ne_iff.mpr (show r.slot.slot_status = SlotStatus.AVAILABLE by
        rw [hsl]; exact hstat))]
      rw [show setSlot r.floors r.ref { Slot.park r.slot v with locked := false }
          = setSlot s.ps.floors r.ref
              { sl0 with slot_status := SlotStatus.BOOKED,
                         vehicle := some v, locked := false } by
        rw [hset, setSlot_setSlot, hnew]]
    have hstep : step s (Op.parkOp v now) =
        { ps := { floors := setSlot s.ps.floors r.ref
                    { sl0 with slot_status := SlotStatus.BOOKED,
                               vehicle := some v, locked := false },
                  active_tickets :=
                    (s.ps.next_ticket_id, ⟨s.ps.next_ticket_id, r.ref, v, now⟩)
                      :: s.ps.active_tickets,
                  next_ticket_id := s.ps.next_ticket_id + 1 },
          issued := s.issued ++ [⟨s.ps.next_ticket_id, r.ref, v, now⟩],
          redeemed := s.redeemed } := by
      simp only [step]
      rw [hpark]
    rw [hstep]
    have hnb : ∀ p ∈ s.ps.active_tickets, p.2.slot ≠ r.ref := by
      intro p hp he
      obtain ⟨sl, hg, hb, _⟩ := hs.tickSlot p hp
      rw [he, hget] at hg
      injection hg with hg
      rw [← hg, hstat] at hb
      cases hb
    refine ⟨?_, ?_, ?_, ?_, ?_, ?_, ?_, ?_, ?_, ?_, ?_, ?_, ?_, ?_⟩
    · exact slots_forall_setSlot hs.locks rfl
    · exact slots_forall_setSlot hs.coher (by simp)
    · intro p hp
      rcases List.mem_cons.mp hp with hp | hp
      · rw [hp]
      · exact hs.keyEq p hp
    · intro p hp
      rcases List.mem_cons.mp hp with hp | hp
      · rw [hp]
        exact Nat.lt_succ_self _
      · exact Nat.lt_succ_of_lt (hs.keyLt p hp)
    · rw [List.pairwise_cons]
      refine ⟨?_, hs.keyNodup⟩
      intro b hb
      have hlt : b.1 < s.ps.next_ticket_id := hs.keyEq b hb ▸ hs.keyLt b hb
      exact (Nat.ne_of_lt hlt).symm
    · rw [List.pairwise_cons]
      refine ⟨?_, hs.refInj⟩
      intro b hb he
      exact hnb b hb he.symm
    · intro p hp
      rcases List.mem_cons.mp hp with hp | hp
      · rw [hp]
        exact ⟨_, getSlot_setSlot_self hget, rfl, rfl⟩
      · obtain ⟨sl, hg, hb, hv⟩ := hs.tickSlot p hp
        exact ⟨sl, by rw [getSlot_setSlot_ne (hnb p hp)]; exact hg, hb, hv⟩
    · intro r1 sl1 hg1 hb1
      by_cases hr : r1 = r.ref
      · exact ⟨(s.ps.next_ticket_id, ⟨s.ps.next_ticket_id, r.ref, v, now⟩),
          List.mem_cons_self _ _, hr.symm⟩
      · rw [getSlot_setSlot_ne hr] at hg1
        obtain ⟨p, hp, e⟩ := hs.slotTick r1 sl1 hg1 hb1
        exact ⟨p, List.mem_cons_of_mem _ hp, e⟩
    · intro t ht
      rcases List.mem_append.mp ht with ht | ht
      · exact Nat.lt_succ_of_lt (hs.issuedLt t ht)
      · rw [List.mem_singleton.mp ht]
        exact Nat.lt_succ_self _
    · refine List.pairwise_append.mpr ⟨hs.issuedNodup, List.pairwise_singleton _ _, ?_⟩
      intro a ha b hb
      rw [List.mem_singleton.mp hb]
      exact Nat.ne_of_lt (hs.issuedLt a ha)
    · intro p hp
      rcases List.mem_cons.mp hp with hp | hp
      · rw [hp]
        exact List.mem_append_right _ (List.mem_singleton.mpr rfl)
      · exact List.mem_append_left _ (hs.storeIssued p hp)
    · intro t ht p hp
      rcases List.mem_append.mp ht with ht | ht
      · rcases List.mem_cons.mp hp with hp | hp
        · intro hkey
          rw [hp] at hkey
          exact absurd (hs.issuedLt t ht) (by rw [← hkey]; exact Nat.lt_irrefl _)
        · exact hs.issuedStore t ht p hp
      · rw [List.mem_singleton.mp ht]
        rcases List.mem_cons.mp hp with hp | hp
        · intro _
          rw [hp]
        · intro hkey
          have hlt : p.1 < s.ps.next_ticket_id := hs.keyEq p hp ▸ hs.keyLt p hp
          rw [hkey] at hlt
          exact absurd hlt (Nat.lt_irrefl _)
    · intro t ht
      rcases List.mem_append.mp ht with ht | ht
      · have hne : t.ticket_id ≠ s.ps.next_ticket_id := Nat.ne_of_lt (hs.issuedLt t ht)
        constructor
        · intro hk
          rcases List.mem_cons.mp hk with hk | hk
          · exact absurd hk hne
          · exact (hs.liveIff t ht).mp hk
        · intro hr
          exact List.mem_cons_of_mem _ ((hs.liveIff t ht).mpr hr)
      · rw [List.mem_singleton.mp ht]
        refine iff_of_true (List.mem_cons_self _ _) ?_
        intro hr
        exact absurd (hs.redeemedLt _ hr) (Nat.lt_irrefl _)
    · intro i hi
      exact Nat.lt_succ_of_lt (hs.redeemedLt i hi)

theorem reachInv_unpark {s : TraceState} (hs : ReachInv s) (k : Nat) (now : ℚ) :
    ReachInv (step s (Op.unparkOp k now)) := by
  cases hk : s.issued[k]? with
  | none =>
    have hstep : step s (Op.unparkOp k now) = s := by
      simp only [step]
      rw [hk]
    rw [hstep]
    exact hs
  | some t =>
    have ht : t ∈ s.issued := List.getElem?_mem hk
    cases hf : s.ps.active_tickets.find? (fun p => p.1 = t.ticket_id) with
    | none =>
      have hun : unpark_vehicle s.ps t now
          = (Except.error "Invalid or expired ticket", s.ps) := by
        rw [unpark_vehicle, if_pos (by rw [hf]; rfl)]
      have hstep : step s (Op.unparkOp k now) = s := by
        simp only [step]
        rw [hk]
        dsimp only
        rw [hun]
      rw [hstep]
      exact hs
    | some p =>
      have hp_mem : p ∈ s.ps.active_tickets := List.mem_of_find?_eq_some hf
      have hp_key : p.1 = t.ticket_id := by
        have h1 := List.find?_some hf
        simpa using h1
      have hpt : p.2 = t := hs.issuedStore t ht p hp_mem hp_key
      obtain ⟨sl, hg, hb, hv⟩ := hs.tickSlot p hp_mem
      rw [hpt] at hg hv
      have hun : unpark_vehicle s.ps t now =
          (Except.ok (PricingService.calculate_price t.entry_time now),
           { s.ps with
               floors := setSlot s.ps.floors t.slot
                 { sl with slot_status := SlotStatus.AVAILABLE,
                           vehicle := none, locked := false },
               active_tickets :=
                 s.ps.active_tickets.filter (fun q => q.1 ≠ t.ticket_id) }) := by
        rw [unpark_vehicle, if_neg (by rw [hf]; simp)]
        rw [hg]
        rfl
      have hstep : step s (Op.unparkOp k now) =
          { s with
              ps := { s.ps with
                floors := setSlot s.ps.floors t.slot
                  { sl with slot_status := SlotStatus.AVAILABLE,
                            vehicle := none, locked := false },
                active_tickets :=
                  s.ps.active_tickets.filter (fun q => q.1 ≠ t.ticket_id) },
              redeemed := t.ticket_id :: s.redeemed } := by
        simp only [step]
        rw [hk]
        dsimp only
        rw [hun]
      rw [hstep]
      have hrefs : ∀ q ∈ s.ps.active_tickets, q.2.slot = t.slot → q.1 = t.ticket_id := by
        intro q hq he
        have hqp : q = p := pairwise_ne_inj hs.refInj hq hp_mem (by rw [he, hpt])
        rw [hqp, hp_key]
      have hkeys_inj : ∀ q ∈ s.ps.active_tickets, q.1 = t.ticket_id → q = p := by
        intro q hq he
        exact pairwise_ne_inj hs.keyNodup hq hp_mem (by rw [he, hp_key])
      refine ⟨?_, ?_, ?_, ?_, ?_, ?_, ?_, ?_, ?_, ?_, ?_, ?_, ?_, ?_⟩
      · exact slots_forall_setSlot hs.locks rfl
      · exact slots_forall_setSlot hs.coher (by simp)
      · intro q hq
        exact hs.keyEq q (List.mem_filter.mp hq).1
      · intro q hq
        exact hs.keyLt q (List.mem_filter.mp hq).1
      · exact hs.keyNodup.sublist (List.filter_sublist _)
      · exact hs.refInj.sublist (List.filter_sublist _)
      · intro q hq
        obtain ⟨hq_mem, hq_dec⟩ := List.mem_filter.mp hq
        have hq_ne : q.1 ≠ t.ticket_id := by simpa using hq_dec
        have hne_slot : q.2.slot ≠ t.slot := fun e => hq_ne (hrefs q hq_mem e)
        obtain ⟨sl2, hg2, hb2, hv2⟩ := hs.tickSlot q hq_mem
        exact ⟨sl2, by rw [getSlot_setSlot_ne hne_slot]; exact hg2, hb2, hv2⟩
      · intro r1 sl1 hg1 hb1
        by_cases hr : r1 = t.slot
        · subst hr
          rw [getSlot_setSlot_self hg] at hg1
          injection hg1 with hg1
          rw [← hg1] at hb1
          cases hb1
        · rw [getSlot_setSlot_ne hr] at hg1
          obtain ⟨q, hq, e⟩ := hs.slotTick r1 sl1 hg1 hb1
          have hq_ne : q.1 ≠ t.ticket_id := by
            intro hqe
            apply hr
            rw [← e, hkeys_inj q hq hqe, hpt]
          exact ⟨q, List.mem_filter.mpr ⟨hq, by simpa using hq_ne⟩, e⟩
      · exact hs.issuedLt
      · exact hs.issuedNodup
      · intro q hq
        exact hs.storeIssued q (List.mem_filter.mp hq).1
      · intro t1 ht1 q hq
        exact hs.issuedStore t1 ht1 q (List.mem_filter.mp hq).1
      · intro t1 ht1
        by_cases hid : t1.ticket_id = t.ticket_id
        · refine iff_of_false ?_ ?_
          · intro hk1
            obtain ⟨q, hq, hqe⟩ := mem_keysOf.mp hk1
            have hq_ne : q.1 ≠ t.ticket_id := by
              simpa using (List.mem_filter.mp hq).2
            exact hq_ne (by rw [hqe, hid])
          · intro hnot
            exact hnot (by rw [hid]; exact List.mem_cons_self _ _)
        · constructor
          · intro hk1
            obtain ⟨q, hq, hqe⟩ := mem_keysOf.mp hk1
            have hold : t1.ticket_id ∈ keysOf s.ps :=
              mem_keysOf.mpr ⟨q, (List.mem_filter.mp hq).1, hqe⟩
            have hnr := (hs.liveIff t1 ht1).mp hold
            intro hmem
            rcases List.mem_cons.mp hmem with hmem | hmem
            · exact hid hmem
            · exact hnr hmem
          · intro hr1
            have hold : t1.ticket_id ∉ s.redeemed :=
              fun hmem => hr1 (List.mem_cons_of_mem _ hmem)
            obtain ⟨q, hq, hqe⟩ := mem_keysOf.mp ((hs.liveIff t1 ht1).mpr hold)
            refine mem_keysOf.mpr ⟨q, List.mem_filter.mpr ⟨hq, ?_⟩, hqe⟩
            have hq_ne : q.1 ≠ t.ticket_id := by
              rw [hqe]
              exact hid
            simpa using hq_ne
      · intro i hi
        rcases List.mem_cons.mp hi with hi | hi
        · rw [hi]
          exact hs.issuedLt t ht
        · exact hs.redeemedLt i hi

theorem reachInv_step {s : TraceState} (hs : ReachInv s) (op : Op) :
    ReachInv (step s op) := by
  cases op with
  | parkOp v now => exact reachInv_park hs v now
  | unparkOp k now => exact reachInv_unpark hs k now

theorem reachInv_runFrom {s : TraceState} (hs : ReachInv s) (ops : List Op) :
    ReachInv (runFrom s ops) := by
  induction ops generalizing s with
  | nil => exact hs
  | cons op ops ih => exact ih (reachInv_step hs op)

theorem reachInv_run {floors : List ParkingFloor} (h : initialFloors floors)
    (ops : List Op) : ReachInv (run floors ops) :=
  reachInv_runFrom (reachInv_start h) ops

theorem step_issued_sub {s : TraceState} (op : Op) :
    ∀ t ∈ s.issued, t ∈ (step s op).issued := by
  cases op with
  | parkOp v now =>
    simp only [step]
    cases hp : park_vehicle s.ps v now with
    | mk topt ps1 =>
      cases topt with
      | some t1 =>
        intro t ht
        exact List.mem_append_left _ ht
      | none =>
        intro t ht
        exact ht
  | unparkOp k now =>
    simp only [step]
    cases hk : s.issued[k]? with
    | none =>
      intro t ht
      exact ht
    | some t1 =>
      dsimp only
      cases hu : unpark_vehicle s.ps t1 now with
      | mk res ps1 =>
        cases res with
        | ok fee =>
          intro t ht
          exact ht
        | error e =>
          intro t ht
          exact ht

theorem step_redeemed_sub {s : TraceState} (op : Op) :
    ∀ i ∈ s.redeemed, i ∈ (step s op).redeemed := by
  cases op with
  | parkOp v now =>
    simp only [step]
    cases hp : park_vehicle s.ps v now with
    | mk topt ps1 =>
      cases topt with
      | some t1 =>
        intro i hi
        exact hi
      | none =>
        intro i hi
        exact hi
  | unparkOp k now =>
    simp only [step]
    cases hk : s.issued[k]? with
    | none =>
      intro i hi
      exact hi
    | some t1 =>
      dsimp only
      cases hu : unpark_vehicle s.ps t1 now with
      | mk res ps1 =>
        cases res with
        | ok fee =>
          intro i hi
          exact List.mem_cons_of_mem _ hi
        | error e =>
          intro i hi
          exact hi

theorem runFrom_issued_sub (s : TraceState) (ops : List Op) :
    ∀ t ∈ s.issued, t ∈ (runFrom s ops).issued := by
  induction ops generalizing s with
  | nil => exact fun t ht => ht
  | cons op ops ih =>
    intro t ht
    exact ih (step s op) t (step_issued_sub op t ht)

theorem runFrom_redeemed_sub (s : TraceState) (ops : List Op) :
    ∀ i ∈ s.redeemed, i ∈ (runFrom s ops).redeemed := by
  induction ops generalizing s with
  | nil => exact fun i hi => hi
  | cons op ops ih =>
    intro i hi
    exact ih (step s op) i (step_redeemed_sub op i hi)

theorem unpark_unknown {ps : ParkingService} {t : Ticket} (now : ℚ)
    (h : t.ticket_id ∉ keysOf ps) :
    unpark_vehicle ps t now = (Except.error "Invalid or expired ticket", ps) := by
  have hf : ps.active_tickets.find? (fun p => p.1 = t.ticket_id) = none := by
    refine List.find?_eq_none.mpr ?_
    intro q hq
    simp only [decide_eq_true_eq]
    exact fun e => h (mem_keysOf.mpr ⟨q, hq, e⟩)
  rw [unpark_vehicle, if_pos (by rw [hf]; rfl)]

theorem unpark_live_ok {s : TraceState} (hinv : ReachInv s) {t : Ticket}
    (ht : t ∈ s.issued) (hk : t.ticket_id ∈ keysOf s.ps) (now : ℚ) :
    (unpark_vehicle s.ps t now).1
      = Except.ok (PricingService.calculate_price t.entry_time now) := by
  obtain ⟨q, hq, hqe⟩ := mem_keysOf.mp hk
  have hqt : q.2 = t := hinv.issuedStore t ht q hq hqe
  obtain ⟨sl, hg, hb, hv⟩ := hinv.tickSlot q hq
  rw [hqt] at hg
  have hfind :
      ¬ ((s.ps.active_tickets.find? (fun p => p.1 = t.ticket_id)).isNone = true) := by
    intro hnone
    rw [Option.isNone_iff_eq_none] at hnone
    have hq2 := List.find?_eq_none.mp hnone q hq
    simp only [decide_eq_true_eq] at hq2
    exact hq2 hqe
  rw [unpark_vehicle, if_neg hfind, hg]

theorem countP_slot_eq_one {l : List (Nat × Ticket)}
    (hpw : l.Pairwise (fun a b => a.2.slot ≠ b.2.slot)) {p : Nat × Ticket}
    (hp : p ∈ l) {r : Nat × Nat} (hr : p.2.slot = r) :
    l.countP (fun q => q.2.slot = r) = 1 := by
  induction l with
  | nil => cases hp
  | cons a l ih =>
    rw [List.pairwise_cons] at hpw
    rcases List.mem_cons.mp hp with rfl | hp
    · rw [List.countP_cons_of_pos _ _ (by simpa using hr)]
      have hzero : l.countP (fun q => decide (q.2.slot = r)) = 0 := by
        refine List.countP_eq_zero.mpr ?_
        intro q hq
        simp only [decide_eq_true_eq]
        exact fun e => hpw.1 q hq (hr.trans e.symm)
      rw [hzero]
    · have hane : a.2.slot ≠ r := fun e => hpw.1 p hp (e.trans hr.symm)
      rw [List.countP_cons_of_neg _ _ (by simpa using hane)]
      exact ih hpw.2 hp

theorem park_commit_spec {ps : ParkingService} {v : Vehicle} {now : ℚ}
    {t : Ticket} {ps1 : ParkingService}
    (h : park_vehicle ps v now = (some t, ps1)) :
    (t.ticket_id, t) ∈ ps1.active_tickets ∧
    ∃ sl1, getSlot ps1.floors t.slot = some sl1 ∧
      sl1.slot_status = SlotStatus.BOOKED ∧ sl1.vehicle = some v := by
  rw [park_vehicle] at h
  cases hall : allocate_slot ps.floors v.vehicle_type with
  | none =>
    rw [hall] at h
    simp at h
  | some r =>
    rw [hall] at h
    dsimp only at h
    obtain ⟨sl0, hget, hl0, hstat, hvt, hsl, hset⟩ := allocate_slot_spec hall
    rw [if_neg (not_ne_iff.mpr (by rw [hsl]; exact hstat))] at h
    simp only [Prod.mk.injEq, Option.some.injEq] at h
    obtain ⟨h1, h2⟩ := h
    subst h1 h2
    constructor
    · exact List.mem_cons_self _ _
    · refine ⟨{ Slot.park r.slot v with locked := false }, ?_, ?_, ?_⟩
      · show getSlot (setSlot r.floors r.ref _) r.ref = _
        rw [hset, setSlot_setSlot]
        exact getSlot_setSlot_self hget
      · rw [hsl]
        rfl
      · rw [hsl]
        rfl

theorem unpark_commit_spec {ps : ParkingService} {t : Ticket} {now : ℚ}
    {fee : ℚ} {ps1 : ParkingService}
    (h : unpark_vehicle ps t now = (Except.ok fee, ps1)) :
    t.ticket_id ∉ keysOf ps1 ∧
    ∃ sl1, getSlot ps1.floors t.slot = some sl1 ∧
      sl1.slot_status = SlotStatus.AVAILABLE ∧ sl1.vehicle = none := by
  rw [unpark_vehicle] at h
  by_cases h0 : (ps.active_tickets.find? (fun p => p.1 = t.ticket_id)).isNone = true
  · rw [if_pos h0] at h
    simp at h
  · rw [if_neg h0] at h
    cases hg : getSlot ps.floors t.slot with
    | none =>
      rw [hg] at h
      simp at h
    | some slot =>
      rw [hg] at h
      dsimp only at h
      simp only [Prod.mk.injEq, Except.ok.injEq] at h
      obtain ⟨h1, h2⟩ := h
      subst h2
      constructor
      · intro hk
        obtain ⟨q, hq, hqe⟩ := mem_keysOf.mp hk
        have hq2 := (List.mem_filter.mp hq).2
        simp only [decide_eq_true_eq] at hq2
        exact hq2 hqe
      · exact ⟨_, getSlot_setSlot_self hg, rfl, rfl⟩

/-- C9 -- Slot state invariant: in every state reachable from a freshly
provisioned facility by any sequence of park/unpark operations, a slot is
BOOKED exactly when its vehicle reference is non-empty, and AVAILABLE
exactly when it is empty. -/
theorem slot_state_invariant (floors0 : List ParkingFloor)
    (h0 : initialFloors floors0) (ops : List Op) :
    ∀ fl ∈ (run floors0 ops).ps.floors, ∀ sl ∈ fl.slots,
      (sl.slot_status = SlotStatus.BOOKED ↔ sl.vehicle ≠ none) ∧
      (sl.slot_status = SlotStatus.AVAILABLE ↔ sl.vehicle = none) := by
  intro fl hfl sl hsl
  have h1 := (reachInv_run h0 ops).coher fl hfl sl hsl
  refine ⟨h1, ?_, ?_⟩
  · intro ha
    by_contra hv
    have hb := h1.mpr hv
    rw [ha] at hb
    cases hb
  · intro hv
    cases hstat : sl.slot_status with
    | AVAILABLE => rfl
    | BOOKED => exact absurd hv (h1.mp hstat)

/-- C9 witness: after one park on the one-slot facility, the slot is BOOKED
with occupant car A. -/
theorem slot_state_invariant_witness :
    initialFloors floorsC2 ∧
    (((mkSlot 1 VehicleCategory.CAR).park carA).slot_status = SlotStatus.BOOKED ↔
      ((mkSlot 1 VehicleCategory.CAR).park carA).vehicle ≠ none) :=
  ⟨by decide,
   (slot_state_invariant floorsC2 (by decide) [Op.parkOp carA 0]
      ⟨1, [(mkSlot 1 VehicleCategory.CAR).park carA]⟩ (by decide)
      ((mkSlot 1 VehicleCategory.CAR).park carA) (by decide)).1⟩

/-- C1 -- Ticket/slot consistency: in every reachable state a slot is BOOKED
iff the ticket store contains exactly one ticket referencing it, and that
ticket's vehicle is the slot's occupant; moreover a successful park leaves
the minted ticket in the store with its slot BOOKED by the parked vehicle
(one step), and a successful unpark removes the ticket's id from the store
and leaves its slot AVAILABLE and empty (one step). -/
theorem ticket_slot_consistency (floors0 : List ParkingFloor)
    (h0 : initialFloors floors0) (ops : List Op) :
    (∀ r sl, getSlot (run floors0 ops).ps.floors r = some sl →
      ((sl.slot_status = SlotStatus.BOOKED ↔
         (run floors0 ops).ps.active_tickets.countP (fun q => q.2.slot = r) = 1) ∧
       (∀ p ∈ (run floors0 ops).ps.active_tickets, p.2.slot = r →
         sl.vehicle = some p.2.vehicle))) ∧
    (∀ v now t ps1, park_vehicle (run floors0 ops).ps v now = (some t, ps1) →
      (t.ticket_id, t) ∈ ps1.active_tickets ∧
      ∃ sl1, getSlot ps1.floors t.slot = some sl1 ∧
        sl1.slot_status = SlotStatus.BOOKED ∧ sl1.vehicle = some v) ∧
    (∀ t now fee ps1,
      unpark_vehicle (run floors0 ops).ps t now = (Except.ok fee, ps1) →
      t.ticket_id ∉ keysOf ps1 ∧
      ∃ sl1, getSlot ps1.floors t.slot = some sl1 ∧
        sl1.slot_status = SlotStatus.AVAILABLE ∧ sl1.vehicle = none) := by
  have hinv := reachInv_run h0 ops
  refine ⟨?_, ?_, ?_⟩
  · intro r sl hg
    constructor
    · constructor
      · intro hb
        obtain ⟨p, hp, e⟩ := hinv.slotTick r sl hg hb
        exact countP_slot_eq_one hinv.refInj hp e
      · intro hc
        have hpos : 0 < (run floors0 ops).ps.active_tickets.countP
            (fun q => q.2.slot = r) := by
          rw [hc]
          exact Nat.zero_lt_one
        obtain ⟨p, hp, he⟩ := List.countP_pos_iff.mp hpos
        have he2 : p.2.slot = r := by simpa using he
        obtain ⟨sl2, hg2, hb2, _⟩ := hinv.tickSlot p hp
        rw [he2, hg] at hg2
        injection hg2 with hg2
        rw [hg2]
        exact hb2
    · intro p hp e
      obtain ⟨sl2, hg2, hb2, hv2⟩ := hinv.tickSlot p hp
      rw [e, hg] at hg2
      injection hg2 with hg2
      rw [hg2]
      exact hv2
  · intro v now t ps1 h
    exact park_commit_spec h
  · intro t now fee ps1 h
    exact unpark_commit_spec h

/-- C1 witness: after one park on the one-slot facility, exactly one stored
ticket references slot (0,0). -/
theorem ticket_slot_consistency_witness :
    initialFloors floorsC2 ∧
    (run floorsC2 [Op.parkOp carA 0]).ps.active_tickets.countP
      (fun q => q.2.slot = (0, 0)) = 1 :=
  ⟨by decide,
   ((ticket_slot_consistency floorsC2 (by decide) [Op.parkOp carA 0]).1
      (0, 0) ((mkSlot 1 VehicleCategory.CAR).park carA) (by decide)).1.mp
     (by decide)⟩

/-- C4 -- No double-redeem: in any reachable state, a ticket issued by park
and not yet redeemed is redeemed successfully (fee returned) by
`unpark_vehicle`; once redeemed, every later `unpark_vehicle` of that ticket
-- after any further operations -- fails with the invalid-or-expired-ticket
error and leaves the whole service state (slots and ticket store) unchanged,
and so does `unpark_vehicle` of any ticket whose id is not in the store. -/
theorem no_double_redeem (floors0 : List ParkingFloor)
    (h0 : initialFloors floors0) (ops1 ops2 : List Op) (now : ℚ) :
    (∀ t ∈ (run floors0 ops1).issued,
       t.ticket_id ∉ (run floors0 ops1).redeemed →
       (unpark_vehicle (run floors0 ops1).ps t now).1
         = Except.ok (PricingService.calculate_price t.entry_time now)) ∧
    (∀ t ∈ (run floors0 ops1).issued,
       t.ticket_id ∈ (run floors0 ops1).redeemed →
       unpark_vehicle (runFrom (run floors0 ops1) ops2).ps t now
         = (Except.error "Invalid or expired ticket",
            (runFrom (run floors0 ops1) ops2).ps)) ∧
    (∀ t : Ticket, t.ticket_id ∉ keysOf (runFrom (run floors0 ops1) ops2).ps →
       unpark_vehicle (runFrom (run floors0 ops1) ops2).ps t now
         = (Except.error "Invalid or expired ticket",
            (runFrom (run floors0 ops1) ops2).ps)) := by
  have hinv1 := reachInv_run h0 ops1
  have hinv2 := reachInv_runFrom hinv1 ops2
  refine ⟨?_, ?_, ?_⟩
  · intro t ht hnr
    exact unpark_live_ok hinv1 ht ((hinv1.liveIff t ht).mpr hnr) now
  · intro t ht hr
    have ht2 : t ∈ (runFrom (run floors0 ops1) ops2).issued :=
      runFrom_issued_sub _ ops2 t ht
    have hr2 : t.ticket_id ∈ (runFrom (run floors0 ops1) ops2).redeemed :=
      runFrom_redeemed_sub _ ops2 _ hr
    have hk : t.ticket_id ∉ keysOf (runFrom (run floors0 ops1) ops2).ps := by
      intro hk
      exact (hinv2.liveIff t ht2).mp hk hr2
    exact unpark_unknown now hk
  · intro t hk
    exact unpark_unknown now hk

/-- C4 witness: on the scenario facility, parking car A then redeeming its
ticket succeeds the first time; afterwards redemption fails with the
invalid-ticket error and changes nothing. -/
theorem no_double_redeem_witness :
    initialFloors floorsC2 ∧
    ticketT1 ∈ (run floorsC2 [Op.parkOp carA 0]).issued ∧
    ticketT1.ticket_id ∉ (run floorsC2 [Op.parkOp carA 0]).redeemed ∧
    (unpark_vehicle (run floorsC2 [Op.parkOp carA 0]).ps ticketT1 7200).1
      = Except.ok (PricingService.calculate_price ticketT1.entry_time 7200) ∧
    ticketT1.ticket_id ∈
      (run floorsC2 [Op.parkOp carA 0, Op.unparkOp 0 7200]).redeemed ∧
    unpark_vehicle
        (runFrom (run floorsC2 [Op.parkOp carA 0, Op.unparkOp 0 7200]) []).ps
        ticketT1 7300
      = (Except.error "Invalid or expired ticket",
         (runFrom (run floorsC2 [Op.parkOp carA 0, Op.unparkOp 0 7200]) []).ps) :=
  ⟨by decide, by decide, by decide,
   (no_double_redeem floorsC2 (by decide) [Op.parkOp carA 0] [] 7200).1
     ticketT1 (by decide) (by decide),
   by decide,
   (no_double_redeem floorsC2 (by decide)
       [Op.parkOp carA 0, Op.unparkOp 0 7200] [] 7300).2.1
     ticketT1 (by decide) (by decide)⟩
